import Mathlib

/-!
Verification model of `src/src/api/TxExecutor.ts` (transaction execution queue).

The stateful `TxExecutor.execute` method is embedded as a pure function from
the executor state, the queued request and a per-request environment (the
results and timestamps produced by the external collaborators: balance query,
network nonce query, confirmation popup, call encoding, network submission,
receipt wait, clock reads) to an `ExecResult` describing the callback
invocations, the state update, the notification side effect and the
instrumentation record.  The fastq worker (concurrency 1) is embedded as a
sequential fold over a list of enqueued requests.
-/

namespace TxExec

/-- A JavaScript `Error` value as the queue observes it: a message and an
optional `body` byte array (present on some network errors). -/
structure JsError where
  message : String
  body : Option (List Nat) := none
deriving DecidableEq, Repr

/-- `providers.TransactionResponse`: the network's acknowledgement handle;
only the `hash` field is read by the executor. -/
structure TxResponse where
  hash : String
deriving DecidableEq, Repr

/-- `providers.TransactionReceipt`: only the `status` field is read. -/
structure TransactionReceipt where
  status : Nat
deriving DecidableEq, Repr

/-- `providers.TransactionRequest` overrides: the fields the executor and its
callers use (gas price, gas limit, nonce). -/
structure TxOverrides where
  gasPrice : Option Nat := none
  gasLimit : Option Nat := none
  nonce : Option Nat := none
deriving DecidableEq, Repr

/-- `SnarkLogData`: opaque diagnostic payload; `json` stands for its
`JSON.stringify` serialization, `proofVerified` is the field the executor
reads. -/
structure SnarkLogData where
  json : String
  proofVerified : Bool
deriving DecidableEq, Repr

/-- `QueuedTxRequest` (without the callback fields, which the model reifies as
the list of callback invocations, and without the opaque `contract`). -/
structure QueuedTxRequest where
  type : String
  actionId : String
  args : List String
  overrides : TxOverrides
  snarkLogs : Option SnarkLogData := none
deriving DecidableEq, Repr

/-- `TxExecutor.TX_SUBMIT_TIMEOUT`. -/
def TX_SUBMIT_TIMEOUT : Nat := 30000

/-- `TxExecutor.NONCE_STALE_AFTER_MS`. -/
def NONCE_STALE_AFTER_MS : Nat := 20000

/-- `TxExecutor.MIN_BALANCE_ETH = 0.002`. -/
def MIN_BALANCE_ETH : ℚ := mkRat 2 1000

/-- The executor's mutable fields `nonce` and `lastTransaction`. -/
structure TxState where
  nonce : Nat
  lastTransaction : Nat
deriving DecidableEq, Repr

/-- The constructor: `this.nonce = nonce; this.lastTransaction = Date.now()`. -/
def initState (nonce now : Nat) : TxState :=
  { nonce := nonce, lastTransaction := now }

/-- Behaviour of the network-submission promise
(`getPlayerContract().forwardOrThrow(...)`): it resolves after some delay,
rejects after some delay, or never settles. -/
inductive NetResp where
  | resolves (r : TxResponse) (delay : Nat)
  | rejects (e : JsError) (delay : Nat)
  | neverSettles
deriving DecidableEq, Repr

/-- Per-request environment: the outcomes of the external calls made during
`execute`, and the successive `Date.now()` readings, as data. -/
structure ExecEnv where
  /-- `Date.now()` at entry (`time_exec_called`). -/
  timeExecCalled : Nat
  /-- result of `this.eth.getBalance(...)` in `checkBalance`. -/
  balanceResult : Except JsError ℚ
  /-- `Date.now()` read inside `maybeUpdateNonce`. -/
  timeNonceCheck : Nat
  /-- result of `this.eth.getNonce()` if the refresh fires. -/
  getNonceResult : Except JsError Nat
  /-- outcome of `PopupManager.openConfirmationWindowForTransaction`. -/
  popupResult : Except JsError Unit
  /-- `Date.now()` after the popup (`time_called`). -/
  timeCalled : Nat
  /-- result of `contract.populateTransaction[methodName](...)`: `(to, data)`. -/
  populateResult : Except JsError (String × String)
  /-- behaviour of the submission promise raced against the timeout. -/
  netResp : NetResp
  /-- `Date.now()` after submission (`time_submitted`). -/
  timeSubmitted : Nat
  /-- result of `waitForTransaction(submitted.hash)`. -/
  receiptResult : Except JsError TransactionReceipt
  /-- `Date.now()` after the receipt (`time_confirmed`). -/
  timeConfirmed : Nat
  /-- `Date.now()` read in the catch branch (`time_errored`). -/
  timeErrored : Nat
  /-- `EthConnection.getInstance().getRpcEndpoint()`. -/
  rpcEndpoint : String
  /-- `EthConnection.getInstance().getAddress()`. -/
  userAddress : String
deriving Repr

/-- Modelled from the spec: `timeoutAfter` lives in `src/utils/Utils.ts`,
which is not under `src/`.  Per the spec it bounds the network submission
with a fixed timeout: the network call's own settlement is kept if it occurs
strictly before the timeout elapses, otherwise the wait fails with the given
timeout message. -/
def timeoutAfter (resp : NetResp) (ms : Nat) (msg : String) : Except JsError TxResponse :=
  match resp with
  | .resolves r d => if d < ms then .ok r else .error { message := msg }
  | .rejects e d => if d < ms then .error e else .error { message := msg }
  | .neverSettles => .error { message := msg }

/-- The timeout message built in `execute` (the source string ends with a
stray closing brace). -/
def submitTimeoutMessage (actionId : String) : String :=
  "tx request " ++ actionId ++ " failed to submit: timed out\x7d"

/-- The error thrown by `checkBalance` when the balance is below the floor. -/
def balanceError : JsError := { message := "xDAI balance too low!" }

/-- The error recorded when the receipt reports `status !== 1`. -/
def revertedError : JsError := { message := "transaction reverted" }

/-- `TxExecutor.checkBalance`: queries the balance; below the floor it fires
the `NotificationManager.balanceEmpty()` side effect (second component) and
throws. -/
def checkBalance (balanceResult : Except JsError ℚ) : Except JsError Unit × Bool :=
  match balanceResult with
  | .error e => (.error e, false)
  | .ok b =>
    if b < MIN_BALANCE_ETH then (.error balanceError, true) else (.ok (), false)

/-- `TxExecutor.maybeUpdateNonce`: refreshes `this.nonce` from the network
when more than `NONCE_STALE_AFTER_MS` has elapsed since `lastTransaction`. -/
def maybeUpdateNonce (st : TxState) (now : Nat) (getNonceResult : Except JsError Nat) :
    Except JsError TxState :=
  if (now : Int) - (st.lastTransaction : Int) > (NONCE_STALE_AFTER_MS : Int) then
    match getNonceResult with
    | .error e => .error e
    | .ok n => .ok { st with nonce := n }
  else
    .ok st

/-- Outcome of the `try` block of `execute`:
either it threw before `time_submitted` was set (`preSubFail`, carrying the
state as left behind, whether the low-balance notification fired, the thrown
error, and the values of `time_called` / the submitted overrides if those
points were reached), or the receipt wait threw after a successful submission
(`postSubFail`), or the block ran to completion (`confirmedOk`). -/
inductive TryResult where
  | preSubFail (st : TxState) (notified : Bool) (e : JsError)
      (time_called : Option Nat) (sent : Option TxOverrides)
  | postSubFail (st : TxState) (submitted : TxResponse) (sent : TxOverrides)
      (time_called : Nat) (e : JsError)
  | confirmedOk (st : TxState) (submitted : TxResponse) (receipt : TransactionReceipt)
      (sent : TxOverrides) (time_called : Nat)
deriving DecidableEq, Repr

/-- The `try` block of `TxExecutor.execute`, step by step:
balance check, conditional nonce refresh, confirmation popup, call encoding,
submission bounded by `TX_SUBMIT_TIMEOUT` with the nonce merged over the
caller's overrides, then nonce increment, `lastTransaction` update and
receipt wait. -/
def tryPhase (st : TxState) (req : QueuedTxRequest) (env : ExecEnv) : TryResult :=
  match checkBalance env.balanceResult with
  | (.error e, notified) => .preSubFail st notified e none none
  | (.ok _, _) =>
    match maybeUpdateNonce st env.timeNonceCheck env.getNonceResult with
    | .error e => .preSubFail st false e none none
    | .ok st1 =>
      match env.popupResult with
      | .error e => .preSubFail st1 false e none none
      | .ok _ =>
        match env.populateResult with
        | .error e => .preSubFail st1 false e (some env.timeCalled) none
        | .ok _ =>
          let sent : TxOverrides := { req.overrides with nonce := some st1.nonce }
          match timeoutAfter env.netResp TX_SUBMIT_TIMEOUT (submitTimeoutMessage req.actionId) with
          | .error e => .preSubFail st1 false e (some env.timeCalled) (some sent)
          | .ok submitted =>
            let st2 : TxState := { nonce := st1.nonce + 1, lastTransaction := env.timeSubmitted }
            match env.receiptResult with
            | .error e => .postSubFail st2 submitted sent env.timeCalled e
            | .ok confirmed => .confirmedOk st2 submitted confirmed sent env.timeCalled

/-- The executor state left behind by the `try` block. -/
def TryResult.state : TryResult → TxState
  | .preSubFail st _ _ _ _ => st
  | .postSubFail st _ _ _ _ => st
  | .confirmedOk st _ _ _ _ => st

/-- Whether `NotificationManager.balanceEmpty()` fired. -/
def TryResult.notified : TryResult → Bool
  | .preSubFail _ n _ _ _ => n
  | .postSubFail _ _ _ _ _ => false
  | .confirmedOk _ _ _ _ _ => false

/-- The overrides actually passed to `forwardOrThrow`, if that point was
reached. -/
def TryResult.sentOverrides : TryResult → Option TxOverrides
  | .preSubFail _ _ _ _ s => s
  | .postSubFail _ _ s _ _ => some s
  | .confirmedOk _ _ _ s _ => some s

/-- One invocation of one of the request's four outcome callbacks. -/
inductive CallbackCall where
  | onTransactionResponse (r : TxResponse)
  | onTransactionReceipt (rc : TransactionReceipt)
  | onSubmissionError (e : JsError)
  | onReceiptError (e : JsError)
deriving DecidableEq, Repr

/-- The callback invocations performed by `execute`, in order.  The catch
branch replays the source's truthiness test `if (!time_submitted)`: after a
successful submission `time_submitted` holds a `Date.now()` reading, which is
falsy exactly when it is `0`. -/
def callsOf (env : ExecEnv) : TryResult → List CallbackCall
  | .preSubFail _ _ e _ _ => [.onSubmissionError e]
  | .postSubFail _ submitted _ _ e =>
    .onTransactionResponse submitted ::
      (if env.timeSubmitted = 0 then [.onSubmissionError e] else [.onReceiptError e])
  | .confirmedOk _ submitted receipt _ _ =>
    [.onTransactionResponse submitted, .onTransactionReceipt receipt]

/-- Final settlement state of a deferred future. -/
inductive Settled (α : Type) where
  | pending
  | resolved (a : α)
  | rejected (e : JsError)
deriving DecidableEq, Repr

/-- Modelled from the spec: `deferred` lives in `src/utils/Utils.ts`, which is
not under `src/`.  Per the spec each request carries a pair of independently
awaitable futures; a future settles at most once, the first resolve or reject
wins and later calls are ignored.  Settlement of the submitted future from the
invocation list. -/
def settleSubmitted : List CallbackCall → Settled TxResponse
  | [] => .pending
  | .onTransactionResponse r :: _ => .resolved r
  | .onSubmissionError e :: _ => .rejected e
  | _ :: rest => settleSubmitted rest

/-- Settlement of the confirmed (receipt) future from the invocation list;
same first-call-wins rule as `settleSubmitted`. -/
def settleReceipt : List CallbackCall → Settled TransactionReceipt
  | [] => .pending
  | .onTransactionReceipt rc :: _ => .resolved rc
  | .onReceiptError e :: _ => .rejected e
  | _ :: rest => settleReceipt rest

/-- The local variables of `execute` as they stand when the instrumentation
record is assembled. -/
structure ExecLocals where
  time_called : Option Nat
  error : Option JsError
  time_submitted : Option Nat
  time_confirmed : Option Nat
  time_errored : Option Nat
  tx_hash : Option String
deriving DecidableEq, Repr

/-- JavaScript truthiness of a possibly-undefined number. -/
def truthy : Option Nat → Bool
  | none => false
  | some n => n != 0

/-- The locals after the `try`/`catch` of `execute`.  On a reverted receipt
(`status !== 1`) the error is recorded with `time_errored = time_confirmed`;
on a thrown error the catch branch reads a fresh `Date.now()`. -/
def localsOf (env : ExecEnv) : TryResult → ExecLocals
  | .preSubFail _ _ e tc _ =>
    { time_called := tc, error := some e, time_submitted := none,
      time_confirmed := none, time_errored := some env.timeErrored, tx_hash := none }
  | .postSubFail _ submitted _ tc e =>
    { time_called := some tc, error := some e, time_submitted := some env.timeSubmitted,
      time_confirmed := none, time_errored := some env.timeErrored,
      tx_hash := some submitted.hash }
  | .confirmedOk _ submitted receipt _ tc =>
    { time_called := some tc,
      error := if receipt.status ≠ 1 then some revertedError else none,
      time_submitted := some env.timeSubmitted,
      time_confirmed := some env.timeConfirmed,
      time_errored := if receipt.status ≠ 1 then some env.timeConfirmed else none,
      tx_hash := some submitted.hash }

/-- The flat instrumentation record (`logEvent`). -/
structure LogEvent where
  tx_type : String
  time_exec_called : Nat
  tx_hash : Option String
  snark_logs : Option String
  snark_local_verified : Option Bool
  wait_submit : Option Int
  wait_confirm : Option Int
  error : Option String
  wait_error : Option Int
  parsed_error : Option String
  rpc_endpoint : String
  user_address : String
deriving DecidableEq, Repr

/-- `JSON.stringify` of an `Error` whose message is empty: an `Error` has no
enumerable own properties, so it serializes to an empty object. -/
def jsonStringifyError (_e : JsError) : String := "\x7b\x7d"

/-- `String.fromCharCode.apply(null, bytes)`. -/
def fromCharCode (l : List Nat) : String :=
  String.mk (l.map (fun n => Char.ofNat n))

/-- Assembly of the instrumentation record from the locals, mirroring the
truthiness guards of the source (`if (time_called && time_submitted)`,
`if (time_confirmed)`, `if (error && time_errored)`, `if (error.body)`). -/
def buildLogEvent (req : QueuedTxRequest) (env : ExecEnv) (l : ExecLocals) : LogEvent :=
  { tx_type := req.type
    time_exec_called := env.timeExecCalled
    tx_hash := l.tx_hash
    snark_logs := req.snarkLogs.map (fun s => s.json)
    snark_local_verified := req.snarkLogs.map (fun s => s.proofVerified)
    wait_submit :=
      if truthy l.time_called && truthy l.time_submitted then
        some ((l.time_submitted.getD 0 : Int) - (l.time_called.getD 0 : Int))
      else none
    wait_confirm :=
      if truthy l.time_called && truthy l.time_submitted && truthy l.time_confirmed then
        some ((l.time_confirmed.getD 0 : Int) - (l.time_called.getD 0 : Int))
      else none
    error :=
      if l.error.isSome && truthy l.time_errored then
        l.error.map (fun e => if e.message = "" then jsonStringifyError e else e.message)
      else none
    wait_error :=
      if l.error.isSome && truthy l.time_errored then
        some ((l.time_errored.getD 0 : Int) - (env.timeExecCalled : Int))
      else none
    parsed_error :=
      if l.error.isSome && truthy l.time_errored then
        (l.error.bind (fun e => e.body)).map fromCharCode
      else none
    rpc_endpoint := env.rpcEndpoint
    user_address := env.userAddress }

/-- `localStorage` contents, keyed by string. -/
def Store : Type := String → Option String

/-- The per-account instrumentation opt-out key. -/
def optOutKey (address : String) : String := "optout-metrics-" ++ address

/-- The complete observable outcome of one `execute` call. -/
structure ExecResult where
  state : TxState
  notifyCount : Nat
  calls : List CallbackCall
  submittedOutcome : Settled TxResponse
  receiptOutcome : Settled TransactionReceipt
  sent : Option TxOverrides
  locals : ExecLocals
  log : LogEvent
  logged : Bool
deriving DecidableEq, Repr

/-- `TxExecutor.execute` as a pure function of the state, the request, the
per-request environment and the `localStorage` contents. -/
def executeModel (store : Store) (st : TxState) (req : QueuedTxRequest) (env : ExecEnv) :
    ExecResult :=
  let t := tryPhase st req env
  let cs := callsOf env t
  let l := localsOf env t
  { state := t.state
    notifyCount := if t.notified then 1 else 0
    calls := cs
    submittedOutcome := settleSubmitted cs
    receiptOutcome := settleReceipt cs
    sent := t.sentOverrides
    locals := l
    log := buildLogEvent req env l
    logged := if store (optOutKey env.userAddress) = some "true" then false else true }

/-- Modelled from the spec: the fastq queue (constructed with
`FastQueue(callbackify(this.execute), 1)` and the `noop` completion callback;
the fastq package is not part of this repository) is, per the spec, a
single-concurrency FIFO worker: requests are processed one at a time in
enqueue order, and each request's processing completes — its errors contained
by the try/catch and the noop callback — before the next begins. -/
def processAll (store : Store) (st : TxState) :
    List (QueuedTxRequest × ExecEnv) → TxState × List ExecResult
  | [] => (st, [])
  | (req, env) :: rest =>
    let r := executeModel store st req env
    let p := processAll store r.state rest
    (p.1, r :: p.2)

/-- `makeRequest` default overrides parameter. -/
def defaultOverrides : TxOverrides :=
  { gasPrice := some 1000000000, gasLimit := some 2000000, nonce := none }

/-- `TxExecutor.makeRequest`: builds the queued request; an omitted overrides
argument is replaced by the default. -/
def makeRequest (type actionId : String) (args : List String)
    (overrides : Option TxOverrides) (snarkLogs : Option SnarkLogData) :
    QueuedTxRequest :=
  { type := type, actionId := actionId, args := args,
    overrides := overrides.getD defaultOverrides, snarkLogs := snarkLogs }

/-- Whether a submission promise settles (resolves or rejects) strictly
before `ms` milliseconds elapse; false means the bounded wait times out. -/
def NetResp.settlesBefore (resp : NetResp) (ms : Nat) : Bool :=
  match resp with
  | .resolves _ d => d < ms
  | .rejects _ d => d < ms
  | .neverSettles => false

/-- Whether a callback invocation settles the submitted future. -/
def isSubmissionSettle : CallbackCall → Bool
  | .onTransactionResponse _ => true
  | .onSubmissionError _ => true
  | _ => false

/-- Whether a callback invocation settles the confirmed (receipt) future. -/
def isReceiptSettle : CallbackCall → Bool
  | .onTransactionReceipt _ => true
  | .onReceiptError _ => true
  | _ => false

/-- Whether a future ended up resolved. -/
def isResolved {α : Type} : Settled α → Bool
  | .resolved _ => true
  | _ => false

/-- The nonces carried by the successfully submitted transactions of a
processing run, in submission order. -/
def submittedNonces (rs : List ExecResult) : List Nat :=
  rs.filterMap (fun r =>
    if isResolved r.submittedOutcome then r.sent.bind (fun o => o.nonce) else none)

/-- Number of successful submissions in a processing run. -/
def successCount (rs : List ExecResult) : Nat :=
  (rs.filter (fun r => isResolved r.submittedOutcome)).length

/-- True when the staleness-triggered nonce refresh never fires during the
run: each request begins within `NONCE_STALE_AFTER_MS` of the
`lastTransaction` timestamp current at that point. -/
def noRefreshRun (store : Store) (st : TxState) :
    List (QueuedTxRequest × ExecEnv) → Bool
  | [] => true
  | (req, env) :: rest =>
    decide ((env.timeNonceCheck : Int) - (st.lastTransaction : Int) ≤
        (NONCE_STALE_AFTER_MS : Int)) &&
      noRefreshRun store (executeModel store st req env).state rest

/-- The enqueue positions at which submitted futures settle, in the order the
settlements happen: request `i` contributes one entry per settlement of its
submitted future, and (the worker being serial) all of request `i`'s entries
precede request `i+1`'s. -/
def settleSeqFrom (i : Nat) : List ExecResult → List Nat
  | [] => []
  | r :: rs =>
    List.replicate (r.calls.filter isSubmissionSettle).length i ++ settleSeqFrom (i + 1) rs

/-- The submission-settlement order of a whole processing run, by enqueue
position. -/
def submissionSettleSequence (rs : List ExecResult) : List Nat :=
  settleSeqFrom 0 rs

/-- The `time_submitted` of the last successful submission of a run, or
`init` when the run contains none. -/
def lastSubmittedTime (init : Nat) (rs : List ExecResult) : Nat :=
  (rs.filterMap (fun r => r.locals.time_submitted)).getLastD init

/-- The nonce value read for submission: the network's value when the
staleness threshold was exceeded, the local value otherwise. -/
def staleNonce (st : TxState) (env : ExecEnv) (n : Nat) : Nat :=
  if (env.timeNonceCheck : Int) - (st.lastTransaction : Int) >
      (NONCE_STALE_AFTER_MS : Int) then n
  else st.nonce

/-- Empty `localStorage`. -/
def storeNone : Store := fun _ => none

/-- A concrete request used by witnesses. -/
def reqW : QueuedTxRequest :=
  { type := "MOVE", actionId := "a1", args := [], overrides := defaultOverrides }

/-- A concrete starting state used by witnesses. -/
def stW : TxState := { nonce := 5, lastTransaction := 1000 }

/-- A concrete environment in which everything succeeds. -/
def envOkW : ExecEnv :=
  { timeExecCalled := 1100
    balanceResult := .ok 1
    timeNonceCheck := 1200
    getNonceResult := .ok 7
    popupResult := .ok ()
    timeCalled := 1300
    populateResult := .ok ("to", "data")
    netResp := .resolves { hash := "0xabc" } 5
    timeSubmitted := 1400
    receiptResult := .ok { status := 1 }
    timeConfirmed := 1500
    timeErrored := 1600
    rpcEndpoint := "rpc"
    userAddress := "addrA" }

/-- Two requests that both submit successfully, the second after a staleness
refresh that re-reads nonce 5 from the network. -/
def itemsRefresh : List (QueuedTxRequest × ExecEnv) :=
  [(reqW, envOkW),
   (reqW, { envOkW with timeNonceCheck := 30000, getNonceResult := .ok 5,
                        timeSubmitted := 31000 })]

/-- A successful request followed by a balance-rejected one, with no
staleness refresh anywhere. -/
def itemsNoRefresh : List (QueuedTxRequest × ExecEnv) :=
  [(reqW, envOkW), (reqW, { envOkW with balanceResult := .ok (mkRat 1 1000) })]

example :
    (executeModel storeNone stW reqW envOkW).submittedOutcome =
      .resolved { hash := "0xabc" } := by decide

example :
    (executeModel storeNone stW reqW envOkW).state = { nonce := 6, lastTransaction := 1400 } := by
  decide

example :
    (executeModel storeNone stW reqW
        { envOkW with receiptResult := .ok { status := 0 } }).receiptOutcome =
      .resolved { status := 0 } := by decide

example :
    (executeModel storeNone stW reqW
        { envOkW with receiptResult := .ok { status := 0 } }).log.error =
      some "transaction reverted" := by decide

example :
    (executeModel storeNone stW reqW
        { envOkW with balanceResult := .ok (mkRat 1 1000) }).submittedOutcome =
      .rejected balanceError := by decide

example :
    (executeModel storeNone stW reqW
        { envOkW with balanceResult := .ok (mkRat 1 1000) }).notifyCount = 1 := by decide

example :
    (executeModel storeNone stW reqW
        { envOkW with timeNonceCheck := 30000, getNonceResult := .ok 42,
                      netResp := .neverSettles }).state.nonce = 42 := by decide

example :
    (executeModel storeNone stW reqW
        { envOkW with timeNonceCheck := 30000, getNonceResult := .ok 42,
                      netResp := .neverSettles }).submittedOutcome =
      .rejected { message := submitTimeoutMessage "a1" } := by decide

example :
    (executeModel storeNone stW reqW envOkW).sent =
      some { gasPrice := some 1000000000, gasLimit := some 2000000, nonce := some 5 } := by
  decide

lemma checkBalance_low {b : ℚ} (h : b < MIN_BALANCE_ETH) :
    checkBalance (.ok b) = (.error balanceError, true) := by
  simp [checkBalance, h]

lemma checkBalance_ok {b : ℚ} (h : ¬ b < MIN_BALANCE_ETH) :
    checkBalance (.ok b) = (.ok (), false) := by
  simp [checkBalance, h]

lemma maybeUpdateNonce_not_stale (st : TxState) {now : Nat} (g : Except JsError Nat)
    (h : (now : Int) - (st.lastTransaction : Int) ≤ (NONCE_STALE_AFTER_MS : Int)) :
    maybeUpdateNonce st now g = .ok st := by
  simp [maybeUpdateNonce, not_lt_of_ge h]

lemma maybeUpdateNonce_ok (st : TxState) (now n : Nat) :
    maybeUpdateNonce st now (.ok n) =
      .ok (if (now : Int) - (st.lastTransaction : Int) > (NONCE_STALE_AFTER_MS : Int) then
            { st with nonce := n } else st) := by
  unfold maybeUpdateNonce
  split <;> simp

lemma tryPhase_balance_low (st : TxState) (req : QueuedTxRequest) {env : ExecEnv} {b : ℚ}
    (hb : env.balanceResult = .ok b) (hlow : b < MIN_BALANCE_ETH) :
    tryPhase st req env = .preSubFail st true balanceError none none := by
  unfold tryPhase
  rw [hb, checkBalance_low hlow]

/-- **C2.** If the balance check reports a balance below `MIN_BALANCE_ETH`,
the request's submitted future is rejected with the balance error (the
"insufficient balance" signal, message `xDAI balance too low!`), the receipt
future stays pending, the executor state (nonce and last-transaction
timestamp) is unchanged, the process-wide `balanceEmpty` notification fires
exactly once, and the worker proceeds to the remaining queued requests as if
the failing request had not touched the state. -/
theorem c2_insufficient_balance (store : Store) (st : TxState) (req : QueuedTxRequest)
    (env : ExecEnv) (b : ℚ) (rest : List (QueuedTxRequest × ExecEnv))
    (hb : env.balanceResult = .ok b) (hlow : b < MIN_BALANCE_ETH) :
    (executeModel store st req env).submittedOutcome = .rejected balanceError ∧
    (executeModel store st req env).receiptOutcome = .pending ∧
    (executeModel store st req env).state = st ∧
    (executeModel store st req env).notifyCount = 1 ∧
    (processAll store st ((req, env) :: rest)).2 =
      executeModel store st req env :: (processAll store st rest).2 ∧
    (processAll store st ((req, env) :: rest)).1 = (processAll store st rest).1 := by
  have ht := tryPhase_balance_low st req hb hlow
  have hstate : (executeModel store st req env).state = st := by
    simp [executeModel, ht, TryResult.state]
  refine ⟨?_, ?_, hstate, ?_, ?_, ?_⟩
  · simp [executeModel, ht, callsOf, settleSubmitted]
  · simp [executeModel, ht, callsOf, settleReceipt]
  · simp [executeModel, ht, TryResult.notified]
  · simp [processAll, hstate]
  · simp [processAll, hstate]

/-- Witness for `c2_insufficient_balance` at a concrete input. -/
theorem c2_insufficient_balance_witness :
    ({ envOkW with balanceResult := .ok (mkRat 1 1000) } : ExecEnv).balanceResult =
        .ok (mkRat 1 1000) ∧
    mkRat 1 1000 < MIN_BALANCE_ETH ∧
    ((executeModel storeNone stW reqW
        { envOkW with balanceResult := .ok (mkRat 1 1000) }).submittedOutcome =
          .rejected balanceError ∧
      (executeModel storeNone stW reqW
        { envOkW with balanceResult := .ok (mkRat 1 1000) }).receiptOutcome = .pending ∧
      (executeModel storeNone stW reqW
        { envOkW with balanceResult := .ok (mkRat 1 1000) }).state = stW ∧
      (executeModel storeNone stW reqW
        { envOkW with balanceResult := .ok (mkRat 1 1000) }).notifyCount = 1 ∧
      (processAll storeNone stW
          ((reqW, { envOkW with balanceResult := .ok (mkRat 1 1000) }) :: [(reqW, envOkW)])).2 =
        executeModel storeNone stW reqW { envOkW with balanceResult := .ok (mkRat 1 1000) } ::
          (processAll storeNone stW [(reqW, envOkW)]).2 ∧
      (processAll storeNone stW
          ((reqW, { envOkW with balanceResult := .ok (mkRat 1 1000) }) :: [(reqW, envOkW)])).1 =
        (processAll storeNone stW [(reqW, envOkW)]).1) :=
  ⟨rfl, by decide,
    c2_insufficient_balance storeNone stW reqW _ (mkRat 1 1000) [(reqW, envOkW)] rfl (by decide)⟩

lemma timeoutAfter_not_settled {resp : NetResp} {ms : Nat} {msg : String}
    (h : resp.settlesBefore ms = false) :
    timeoutAfter resp ms msg = .error { message := msg } := by
  cases resp with
  | resolves r d =>
    simp only [NetResp.settlesBefore, decide_eq_false_iff_not] at h
    simp [timeoutAfter, h]
  | rejects e d =>
    simp only [NetResp.settlesBefore, decide_eq_false_iff_not] at h
    simp [timeoutAfter, h]
  | neverSettles => rfl

lemma timeoutAfter_resolves {r : TxResponse} {d ms : Nat} (msg : String) (h : d < ms) :
    timeoutAfter (.resolves r d) ms msg = .ok r := by
  simp [timeoutAfter, h]

lemma tryPhase_timeout (st : TxState) (req : QueuedTxRequest) {env : ExecEnv} {b : ℚ}
    {pd : String × String}
    (hb : env.balanceResult = .ok b) (hlow : ¬ b < MIN_BALANCE_ETH)
    (hfresh : (env.timeNonceCheck : Int) - (st.lastTransaction : Int) ≤
        (NONCE_STALE_AFTER_MS : Int))
    (hpopup : env.popupResult = .ok ()) (hpt : env.populateResult = .ok pd)
    (hnet : env.netResp.settlesBefore TX_SUBMIT_TIMEOUT = false) :
    tryPhase st req env =
      .preSubFail st false { message := submitTimeoutMessage req.actionId }
        (some env.timeCalled) (some { req.overrides with nonce := some st.nonce }) := by
  simp only [tryPhase, hb, checkBalance_ok hlow, maybeUpdateNonce_not_stale st env.getNonceResult hfresh,
    hpopup, hpt, timeoutAfter_not_settled hnet]

/-- **C3.** If the network does not acknowledge the submission before the
30000 ms submission timeout, the submitted future is rejected with the
timeout error, the receipt future stays pending, and the queue proceeds to
the next request.  As amended: the nonce is not incremented and the
last-transaction timestamp is untouched, but the executor state is literally
unchanged only when the staleness refresh did not fire for this request
(hypothesis `hfresh`); a firing refresh overwrites the nonce with the network
value even when the submission then times out (see the counterexample). -/
theorem c3_submission_timeout (store : Store) (st : TxState) (req : QueuedTxRequest)
    (env : ExecEnv) (b : ℚ) (pd : String × String) (rest : List (QueuedTxRequest × ExecEnv))
    (hb : env.balanceResult = .ok b) (hlow : ¬ b < MIN_BALANCE_ETH)
    (hfresh : (env.timeNonceCheck : Int) - (st.lastTransaction : Int) ≤
        (NONCE_STALE_AFTER_MS : Int))
    (hpopup : env.popupResult = .ok ()) (hpt : env.populateResult = .ok pd)
    (hnet : env.netResp.settlesBefore TX_SUBMIT_TIMEOUT = false) :
    (executeModel store st req env).submittedOutcome =
        .rejected { message := submitTimeoutMessage req.actionId } ∧
    (executeModel store st req env).receiptOutcome = .pending ∧
    (executeModel store st req env).state = st ∧
    (processAll store st ((req, env) :: rest)).2 =
      executeModel store st req env :: (processAll store st rest).2 ∧
    (processAll store st ((req, env) :: rest)).1 = (processAll store st rest).1 := by
  have ht := tryPhase_timeout st req hb hlow hfresh hpopup hpt hnet
  have hstate : (executeModel store st req env).state = st := by
    simp [executeModel, ht, TryResult.state]
  refine ⟨?_, ?_, hstate, ?_, ?_⟩
  · simp [executeModel, ht, callsOf, settleSubmitted]
  · simp [executeModel, ht, callsOf, settleReceipt]
  · simp [processAll, hstate]
  · simp [processAll, hstate]

/-- Witness for `c3_submission_timeout` at a concrete input (network never
acknowledges, nonce not stale). -/
theorem c3_submission_timeout_witness :
    (executeModel storeNone stW reqW
        { envOkW with netResp := .neverSettles }).submittedOutcome =
        .rejected { message := submitTimeoutMessage reqW.actionId } ∧
    (executeModel storeNone stW reqW { envOkW with netResp := .neverSettles }).state = stW :=
  have h := c3_submission_timeout storeNone stW reqW { envOkW with netResp := .neverSettles }
    1 ("to", "data") [] rfl (by decide) (by decide) rfl rfl rfl
  ⟨h.1, h.2.2.1⟩

/-- **C3 counterexample.** The claim asserts the nonce value is unchanged on
a submission timeout.  Concretely: starting nonce 5, a request whose
staleness refresh fires (network reports nonce 42) and whose submission then
times out ends with the executor's nonce equal to 42, not 5 — the submitted
future is indeed rejected with the timeout error, but the nonce value has
changed. -/
theorem c3_counterexample :
    stW.nonce = 5 ∧
    (executeModel storeNone stW reqW
        { envOkW with timeNonceCheck := 30000, getNonceResult := .ok 42,
                      netResp := .neverSettles }).submittedOutcome =
      .rejected { message := submitTimeoutMessage "a1" } ∧
    (executeModel storeNone stW reqW
        { envOkW with timeNonceCheck := 30000, getNonceResult := .ok 42,
                      netResp := .neverSettles }).state.nonce = 42 := by
  decide

lemma tryPhase_confirmed (st : TxState) (req : QueuedTxRequest) {env : ExecEnv} {b : ℚ}
    {pd : String × String} {resp : TxResponse} {d : Nat} {rc : TransactionReceipt}
    (hb : env.balanceResult = .ok b) (hlow : ¬ b < MIN_BALANCE_ETH)
    (hfresh : (env.timeNonceCheck : Int) - (st.lastTransaction : Int) ≤
        (NONCE_STALE_AFTER_MS : Int))
    (hpopup : env.popupResult = .ok ()) (hpt : env.populateResult = .ok pd)
    (hnet : env.netResp = .resolves resp d) (hd : d < TX_SUBMIT_TIMEOUT)
    (hrc : env.receiptResult = .ok rc) :
    tryPhase st req env =
      .confirmedOk { nonce := st.nonce + 1, lastTransaction := env.timeSubmitted }
        resp rc { req.overrides with nonce := some st.nonce } env.timeCalled := by
  simp only [tryPhase, hb, checkBalance_ok hlow, maybeUpdateNonce_not_stale st env.getNonceResult hfresh,
    hpopup, hpt, hnet, timeoutAfter_resolves _ hd, hrc]

/-- **C1 (amended).** A request whose transaction submits successfully but
whose receipt reports failed execution (`status ≠ 1`) has its submitted
future resolved with the network's acknowledgement handle and its confirmed
future **resolved with the receipt** (not rejected: `onTransactionReceipt` is
invoked before the status check and `onReceiptError` is never invoked); the
error `transaction reverted` is recorded in the instrumentation record, and
the nonce remains consumed (incremented).  The staleness refresh is assumed
not to fire (`hfresh`) so that "incremented" refers to the incoming nonce. -/
theorem c1_reverted_receipt (store : Store) (st : TxState) (req : QueuedTxRequest)
    (env : ExecEnv) (b : ℚ) (pd : String × String) (resp : TxResponse) (d : Nat)
    (rc : TransactionReceipt)
    (hb : env.balanceResult = .ok b) (hlow : ¬ b < MIN_BALANCE_ETH)
    (hfresh : (env.timeNonceCheck : Int) - (st.lastTransaction : Int) ≤
        (NONCE_STALE_AFTER_MS : Int))
    (hpopup : env.popupResult = .ok ()) (hpt : env.populateResult = .ok pd)
    (hnet : env.netResp = .resolves resp d) (hd : d < TX_SUBMIT_TIMEOUT)
    (hrc : env.receiptResult = .ok rc) (hstatus : rc.status ≠ 1)
    (htc : env.timeConfirmed ≠ 0) :
    (executeModel store st req env).submittedOutcome = .resolved resp ∧
    (executeModel store st req env).receiptOutcome = .resolved rc ∧
    (executeModel store st req env).calls =
      [.onTransactionResponse resp, .onTransactionReceipt rc] ∧
    (executeModel store st req env).locals.error = some revertedError ∧
    (executeModel store st req env).log.error = some "transaction reverted" ∧
    (executeModel store st req env).state =
      { nonce := st.nonce + 1, lastTransaction := env.timeSubmitted } := by
  have ht := tryPhase_confirmed st req hb hlow hfresh hpopup hpt hnet hd hrc
  refine ⟨?_, ?_, ?_, ?_, ?_, ?_⟩
  · simp [executeModel, ht, callsOf, settleSubmitted]
  · simp [executeModel, ht, callsOf, settleReceipt, settleSubmitted]
  · simp [executeModel, ht, callsOf]
  · simp [executeModel, ht, localsOf, hstatus]
  · simp [executeModel, ht, localsOf, hstatus, buildLogEvent, truthy, htc, revertedError]
  · simp [executeModel, ht, TryResult.state]

/-- Witness for `c1_reverted_receipt` at a concrete input. -/
theorem c1_reverted_receipt_witness :
    (executeModel storeNone stW reqW
        { envOkW with receiptResult := .ok { status := 0 } }).receiptOutcome =
        .resolved { status := 0 } ∧
    (executeModel storeNone stW reqW
        { envOkW with receiptResult := .ok { status := 0 } }).log.error =
      some "transaction reverted" :=
  have h := c1_reverted_receipt storeNone stW reqW
    { envOkW with receiptResult := .ok { status := 0 } }
    1 ("to", "data") { hash := "0xabc" } 5 { status := 0 }
    rfl (by decide) (by decide) rfl rfl rfl (by decide) rfl (by decide) (by decide)
  ⟨h.2.1, h.2.2.2.2.1⟩

/-- **C1 counterexample.** The claim states the confirmed future is rejected
with a `TransactionReverted` error and not resolved with the receipt.  On a
concrete run whose receipt has `status = 0`, the executor resolves the
confirmed future with that receipt, and its callback trace contains no
`onReceiptError` invocation at all — the confirmed future is never
rejected. -/
theorem c1_counterexample :
    (executeModel storeNone stW reqW
        { envOkW with receiptResult := .ok { status := 0 } }).receiptOutcome =
      .resolved { status := 0 } ∧
    (executeModel storeNone stW reqW
        { envOkW with receiptResult := .ok { status := 0 } }).calls =
      [.onTransactionResponse { hash := "0xabc" }, .onTransactionReceipt { status := 0 }] := by
  decide

lemma tryPhase_noRefresh (st : TxState) (req : QueuedTxRequest) (env : ExecEnv)
    (hfresh : (env.timeNonceCheck : Int) - (st.lastTransaction : Int) ≤
        (NONCE_STALE_AFTER_MS : Int)) :
    (∃ notified e tc so, tryPhase st req env = .preSubFail st notified e tc so) ∨
    (∃ sub tc e, tryPhase st req env =
        .postSubFail { nonce := st.nonce + 1, lastTransaction := env.timeSubmitted } sub
          { req.overrides with nonce := some st.nonce } tc e) ∨
    (∃ sub rc tc, tryPhase st req env =
        .confirmedOk { nonce := st.nonce + 1, lastTransaction := env.timeSubmitted } sub rc
          { req.overrides with nonce := some st.nonce } tc) := by
  have hmn := maybeUpdateNonce_not_stale st env.getNonceResult hfresh
  rcases hbal : env.balanceResult with e | b
  · refine Or.inl ⟨false, e, none, none, ?_⟩
    simp [tryPhase, hbal, checkBalance]
  · by_cases hlow : b < MIN_BALANCE_ETH
    · refine Or.inl ⟨true, balanceError, none, none, ?_⟩
      simp [tryPhase, hbal, checkBalance, hlow]
    · rcases hpop : env.popupResult with e | u
      · refine Or.inl ⟨false, e, none, none, ?_⟩
        simp [tryPhase, hbal, checkBalance_ok hlow, hmn, hpop]
      · rcases hpt : env.populateResult with e | pd
        · refine Or.inl ⟨false, e, some env.timeCalled, none, ?_⟩
          simp [tryPhase, hbal, checkBalance_ok hlow, hmn, hpop, hpt]
        · rcases hta : timeoutAfter env.netResp TX_SUBMIT_TIMEOUT
              (submitTimeoutMessage req.actionId) with e | sub
          · refine Or.inl ⟨false, e, some env.timeCalled,
              some { req.overrides with nonce := some st.nonce }, ?_⟩
            simp [tryPhase, hbal, checkBalance_ok hlow, hmn, hpop, hpt, hta]
          · rcases hrc : env.receiptResult with e | rc
            · refine Or.inr (Or.inl ⟨sub, env.timeCalled, e, ?_⟩)
              simp [tryPhase, hbal, checkBalance_ok hlow, hmn, hpop, hpt, hta, hrc]
            · refine Or.inr (Or.inr ⟨sub, rc, env.timeCalled, ?_⟩)
              simp [tryPhase, hbal, checkBalance_ok hlow, hmn, hpop, hpt, hta, hrc]

lemma executeModel_noRefresh (store : Store) (st : TxState) (req : QueuedTxRequest)
    (env : ExecEnv)
    (hfresh : (env.timeNonceCheck : Int) - (st.lastTransaction : Int) ≤
        (NONCE_STALE_AFTER_MS : Int)) :
    (isResolved (executeModel store st req env).submittedOutcome = true →
        (executeModel store st req env).state =
          { nonce := st.nonce + 1, lastTransaction := env.timeSubmitted } ∧
        (executeModel store st req env).sent.bind (fun o => o.nonce) = some st.nonce) ∧
    (isResolved (executeModel store st req env).submittedOutcome = false →
        (executeModel store st req env).state = st) := by
  rcases tryPhase_noRefresh st req env hfresh with
    ⟨n, e, tc, so, ht⟩ | ⟨sub, tc, e, ht⟩ | ⟨sub, rc, tc, ht⟩
  · constructor
    · intro habs
      simp [executeModel, ht, callsOf, settleSubmitted, isResolved] at habs
    · intro _
      simp [executeModel, ht, TryResult.state]
  · constructor
    · intro _
      constructor
      · simp [executeModel, ht, TryResult.state]
      · simp [executeModel, ht, TryResult.sentOverrides]
    · intro habs
      simp [executeModel, ht, callsOf, settleSubmitted, isResolved] at habs
  · constructor
    · intro _
      constructor
      · simp [executeModel, ht, TryResult.state]
      · simp [executeModel, ht, TryResult.sentOverrides]
    · intro habs
      simp [executeModel, ht, callsOf, settleSubmitted, isResolved] at habs

lemma processAll_noRefresh_nonces (store : Store)
    (items : List (QueuedTxRequest × ExecEnv)) :
    ∀ st : TxState, noRefreshRun store st items = true →
      submittedNonces (processAll store st items).2 =
        List.range' st.nonce (successCount (processAll store st items).2) := by
  induction items with
  | nil =>
    intro st _
    simp [processAll, submittedNonces, successCount, List.range']
  | cons p rest ih =>
    obtain ⟨req, env⟩ := p
    intro st h
    rw [noRefreshRun, Bool.and_eq_true, decide_eq_true_eq] at h
    obtain ⟨h1, h2⟩ := h
    have hm := executeModel_noRefresh store st req env h1
    cases hres : isResolved (executeModel store st req env).submittedOutcome with
    | false =>
      have hst : (executeModel store st req env).state = st := hm.2 hres
      rw [hst] at h2
      have htail := ih st h2
      simp only [processAll, hst, submittedNonces, List.filterMap_cons, hres,
        successCount, List.filter_cons] at *
      simpa [hres] using htail
    | true =>
      obtain ⟨hst, hsent⟩ := hm.1 hres
      rw [hst] at h2
      have htail := ih _ h2
      simp only [processAll, hst, submittedNonces, List.filterMap_cons, hres,
        successCount, List.filter_cons, if_pos, hsent] at *
      rw [htail]
      simp [hres, List.range'_succ]

/-- **C4 (amended).** Provided the staleness refresh never fires during the
run (`noRefreshRun`), the k-th successful submission carries nonce
`st.nonce + k`: the submitted nonces form the contiguous range starting at
the nonce current before processing, so they are strictly increasing and no
two successfully submitted transactions share a nonce.  Without that
proviso the claim is false: a staleness refresh overwrites the nonce with
the network's value, which can repeat an already-used nonce or decrease it
(see the counterexample). -/
theorem c4_nonce_sequence (store : Store) (st : TxState)
    (items : List (QueuedTxRequest × ExecEnv))
    (h : noRefreshRun store st items = true) :
    submittedNonces (processAll store st items).2 =
      List.range' st.nonce (successCount (processAll store st items).2) ∧
    (submittedNonces (processAll store st items).2).Pairwise (· < ·) ∧
    (submittedNonces (processAll store st items).2).Nodup := by
  have heq := processAll_noRefresh_nonces store items st h
  refine ⟨heq, ?_, ?_⟩
  · rw [heq]
    exact List.pairwise_lt_range' _ _
  · rw [heq]
    exact List.nodup_range' _ _

/-- Witness for `c4_nonce_sequence` at a concrete run (one success, one
balance failure): the submitted nonces are exactly `range' 5 1 = [5]`. -/
theorem c4_nonce_sequence_witness :
    noRefreshRun storeNone stW itemsNoRefresh = true ∧
    (submittedNonces (processAll storeNone stW itemsNoRefresh).2 =
        List.range' stW.nonce (successCount (processAll storeNone stW itemsNoRefresh).2) ∧
      (submittedNonces (processAll storeNone stW itemsNoRefresh).2).Pairwise (· < ·) ∧
      (submittedNonces (processAll storeNone stW itemsNoRefresh).2).Nodup) :=
  ⟨by decide, c4_nonce_sequence storeNone stW itemsNoRefresh (by decide)⟩

/-- **C4 counterexample.** With starting nonce 5, a successful submission
followed by a request whose staleness refresh re-reads nonce 5 from the
network yields submitted nonces `[5, 5]`: two successfully submitted
transactions carry the same nonce, and the executor's nonce decreased from 6
back to 5 along the way. -/
theorem c4_counterexample :
    submittedNonces (processAll storeNone stW itemsRefresh).2 = [5, 5] ∧
    ¬ (submittedNonces (processAll storeNone stW itemsRefresh).2).Nodup := by
  decide

lemma calls_subSettle_count (store : Store) (st : TxState) (req : QueuedTxRequest)
    (env : ExecEnv) (h : env.timeSubmitted ≠ 0) :
    ((executeModel store st req env).calls.filter isSubmissionSettle).length = 1 := by
  cases ht : tryPhase st req env with
  | preSubFail st' n e tc so =>
    simp [executeModel, ht, callsOf, isSubmissionSettle]
  | postSubFail st' sub sent tc e =>
    simp [executeModel, ht, callsOf, isSubmissionSettle, h]
  | confirmedOk st' sub rc sent tc =>
    simp [executeModel, ht, callsOf, isSubmissionSettle]

lemma settleSeqFrom_all_one :
    ∀ (rs : List ExecResult) (i : Nat),
      (∀ r ∈ rs, (r.calls.filter isSubmissionSettle).length = 1) →
      settleSeqFrom i rs = List.range' i rs.length := by
  intro rs
  induction rs with
  | nil =>
    intro i _
    simp [settleSeqFrom, List.range']
  | cons r rest ih =>
    intro i h
    rw [settleSeqFrom, h r (List.mem_cons_self r rest), ih (i + 1)
      (fun r' hr' => h r' (List.mem_cons_of_mem r hr')), List.length_cons,
      List.range'_succ]
    simp

lemma processAll_subSettle_counts (store : Store) :
    ∀ (items : List (QueuedTxRequest × ExecEnv)) (st : TxState),
      (∀ p ∈ items, (p.2 : ExecEnv).timeSubmitted ≠ 0) →
      ∀ r ∈ (processAll store st items).2,
        (r.calls.filter isSubmissionSettle).length = 1 := by
  intro items
  induction items with
  | nil =>
    intro st _ r hr
    simp [processAll] at hr
  | cons p rest ih =>
    intro st h r hr
    obtain ⟨req, env⟩ := p
    simp only [processAll, List.mem_cons] at hr
    rcases hr with rfl | hr'
    · exact calls_subSettle_count store st req env (h (req, env) (List.mem_cons_self _ _))
    · exact ih _ (fun q hq => h q (List.mem_cons_of_mem _ hq)) r hr'

lemma processAll_length (store : Store) :
    ∀ (items : List (QueuedTxRequest × ExecEnv)) (st : TxState),
      (processAll store st items).2.length = items.length := by
  intro items
  induction items with
  | nil => intro st; simp [processAll]
  | cons p rest ih =>
    intro st
    obtain ⟨req, env⟩ := p
    simp [processAll, ih]

/-- **C5.** The worker processes requests with concurrency exactly 1 in
strict FIFO enqueue order: whenever the clock readings are nonzero (so the
source's truthiness tests behave), every enqueued request settles its
submitted future exactly once, and the settlement order by enqueue position
is exactly `0, 1, ..., n-1` — no request's submitted future settles before
every earlier-enqueued request's submitted future has settled. -/
theorem c5_fifo_submission_order (store : Store) (st : TxState)
    (items : List (QueuedTxRequest × ExecEnv))
    (h : ∀ p ∈ items, (p.2 : ExecEnv).timeSubmitted ≠ 0) :
    submissionSettleSequence (processAll store st items).2 = List.range items.length := by
  rw [submissionSettleSequence,
    settleSeqFrom_all_one _ 0 (processAll_subSettle_counts store items st h),
    processAll_length, List.range_eq_range']

/-- Witness for `c5_fifo_submission_order` on a concrete two-request run
(one success, one balance failure): the settlement sequence is `[0, 1]`. -/
theorem c5_fifo_submission_order_witness :
    (∀ p ∈ itemsNoRefresh, (p.2 : ExecEnv).timeSubmitted ≠ 0) ∧
    submissionSettleSequence (processAll storeNone stW itemsNoRefresh).2 =
      List.range itemsNoRefresh.length :=
  ⟨by decide, c5_fifo_submission_order storeNone stW itemsNoRefresh (by decide)⟩

lemma maybeUpdateNonce_ok_lastTransaction {st st1 : TxState} {now : Nat}
    {g : Except JsError Nat} (h : maybeUpdateNonce st now g = .ok st1) :
    st1.lastTransaction = st.lastTransaction := by
  unfold maybeUpdateNonce at h
  split at h
  · cases g with
    | error e => simp at h
    | ok n =>
      simp only [Except.ok.injEq] at h
      rw [← h]
  · simp only [Except.ok.injEq] at h
    rw [← h]

lemma tryPhase_cases (st : TxState) (req : QueuedTxRequest) (env : ExecEnv) :
    (∃ st' n e tc so, tryPhase st req env = .preSubFail st' n e tc so ∧
        st'.lastTransaction = st.lastTransaction) ∨
    (∃ st' sub sent tc e, tryPhase st req env = .postSubFail st' sub sent tc e ∧
        st'.lastTransaction = env.timeSubmitted) ∨
    (∃ st' sub rc sent tc, tryPhase st req env = .confirmedOk st' sub rc sent tc ∧
        st'.lastTransaction = env.timeSubmitted) := by
  rcases hbal : env.balanceResult with e | b
  · exact Or.inl ⟨st, false, e, none, none, by simp [tryPhase, hbal, checkBalance], rfl⟩
  · by_cases hlow : b < MIN_BALANCE_ETH
    · exact Or.inl ⟨st, true, balanceError, none, none,
        by simp [tryPhase, hbal, checkBalance, hlow], rfl⟩
    · rcases hmn : maybeUpdateNonce st env.timeNonceCheck env.getNonceResult with e | st1
      · exact Or.inl ⟨st, false, e, none, none,
          by simp [tryPhase, hbal, checkBalance_ok hlow, hmn], rfl⟩
      · have hlt := maybeUpdateNonce_ok_lastTransaction hmn
        rcases hpop : env.popupResult with e | u
        · exact Or.inl ⟨st1, false, e, none, none,
            by simp [tryPhase, hbal, checkBalance_ok hlow, hmn, hpop], hlt⟩
        · rcases hpt : env.populateResult with e | pd
          · exact Or.inl ⟨st1, false, e, some env.timeCalled, none,
              by simp [tryPhase, hbal, checkBalance_ok hlow, hmn, hpop, hpt], hlt⟩
          · rcases hta : timeoutAfter env.netResp TX_SUBMIT_TIMEOUT
                (submitTimeoutMessage req.actionId) with e | sub
            · exact Or.inl ⟨st1, false, e, some env.timeCalled,
                some { req.overrides with nonce := some st1.nonce },
                by simp [tryPhase, hbal, checkBalance_ok hlow, hmn, hpop, hpt, hta], hlt⟩
            · rcases hrc : env.receiptResult with e | rc
              · exact Or.inr (Or.inl
                  ⟨{ nonce := st1.nonce + 1, lastTransaction := env.timeSubmitted }, sub,
                    { req.overrides with nonce := some st1.nonce }, env.timeCalled, e,
                    by simp [tryPhase, hbal, checkBalance_ok hlow, hmn, hpop, hpt, hta, hrc],
                    rfl⟩)
              · exact Or.inr (Or.inr
                  ⟨{ nonce := st1.nonce + 1, lastTransaction := env.timeSubmitted }, sub, rc,
                    { req.overrides with nonce := some st1.nonce }, env.timeCalled,
                    by simp [tryPhase, hbal, checkBalance_ok hlow, hmn, hpop, hpt, hta, hrc],
                    rfl⟩)

lemma executeModel_lastTransaction (store : Store) (st : TxState) (req : QueuedTxRequest)
    (env : ExecEnv) :
    (executeModel store st req env).state.lastTransaction =
      ((executeModel store st req env).locals.time_submitted).getD st.lastTransaction := by
  rcases tryPhase_cases st req env with
    ⟨st', n, e, tc, so, ht, hlt⟩ | ⟨st', sub, sent, tc, e, ht, hlt⟩ |
    ⟨st', sub, rc, sent, tc, ht, hlt⟩
  · simp [executeModel, ht, TryResult.state, localsOf, hlt]
  · simp [executeModel, ht, TryResult.state, localsOf, hlt]
  · simp [executeModel, ht, TryResult.state, localsOf, hlt]

lemma processAll_lastTransaction (store : Store) :
    ∀ (items : List (QueuedTxRequest × ExecEnv)) (st : TxState),
      (processAll store st items).1.lastTransaction =
        lastSubmittedTime st.lastTransaction (processAll store st items).2 := by
  intro items
  induction items with
  | nil =>
    intro st
    simp [processAll, lastSubmittedTime]
  | cons p rest ih =>
    intro st
    obtain ⟨req, env⟩ := p
    have hexec := executeModel_lastTransaction store st req env
    cases hts : (executeModel store st req env).locals.time_submitted with
    | none =>
      rw [hts] at hexec
      simp only [Option.getD_none] at hexec
      simp only [processAll, lastSubmittedTime, List.filterMap_cons, hts]
      rw [← lastSubmittedTime, ih, hexec]
    | some t =>
      rw [hts] at hexec
      simp only [Option.getD_some] at hexec
      simp only [processAll, lastSubmittedTime, List.filterMap_cons, hts,
        List.getLastD_cons]
      rw [← lastSubmittedTime, ih, hexec]

lemma tryPhase_sent {st : TxState} {req : QueuedTxRequest} {env : ExecEnv} {b : ℚ} {n : Nat}
    {pd : String × String}
    (hb : env.balanceResult = .ok b) (hlow : ¬ b < MIN_BALANCE_ETH)
    (hget : env.getNonceResult = .ok n)
    (hpop : env.popupResult = .ok ()) (hpt : env.populateResult = .ok pd) :
    (tryPhase st req env).sentOverrides =
      some { req.overrides with nonce := some (staleNonce st env n) } := by
  by_cases hstale : (env.timeNonceCheck : Int) - (st.lastTransaction : Int) >
      (NONCE_STALE_AFTER_MS : Int)
  · have hmn : maybeUpdateNonce st env.timeNonceCheck env.getNonceResult =
        .ok { st with nonce := n } := by
      simp [maybeUpdateNonce, hstale, hget]
    rcases hta : timeoutAfter env.netResp TX_SUBMIT_TIMEOUT
        (submitTimeoutMessage req.actionId) with e | sub
    · simp [tryPhase, hb, checkBalance_ok hlow, hmn, hpop, hpt, hta,
        TryResult.sentOverrides, hstale, staleNonce]
    · rcases hrc : env.receiptResult with e | rc
      · simp [tryPhase, hb, checkBalance_ok hlow, hmn, hpop, hpt, hta, hrc,
          TryResult.sentOverrides, hstale, staleNonce]
      · simp [tryPhase, hb, checkBalance_ok hlow, hmn, hpop, hpt, hta, hrc,
          TryResult.sentOverrides, hstale, staleNonce]
  · have hmn := maybeUpdateNonce_not_stale st env.getNonceResult (le_of_not_lt hstale)
    rcases hta : timeoutAfter env.netResp TX_SUBMIT_TIMEOUT
        (submitTimeoutMessage req.actionId) with e | sub
    · simp [tryPhase, hb, checkBalance_ok hlow, hmn, hpop, hpt, hta,
        TryResult.sentOverrides, hstale, staleNonce]
    · rcases hrc : env.receiptResult with e | rc
      · simp [tryPhase, hb, checkBalance_ok hlow, hmn, hpop, hpt, hta, hrc,
          TryResult.sentOverrides, hstale, staleNonce]
      · simp [tryPhase, hb, checkBalance_ok hlow, hmn, hpop, hpt, hta, hrc,
          TryResult.sentOverrides, hstale, staleNonce]

/-- **C6.** Staleness of the nonce is measured against the `lastTransaction`
timestamp, which tracks the time of the last successful submission (seeded at
construction): (1) `maybeUpdateNonce` overwrites the local nonce with the
network's value exactly when more than `NONCE_STALE_AFTER_MS` (20000 ms) has
elapsed since `lastTransaction`; (2) the nonce sent with the submission is
the refreshed value when stale and the local value otherwise — the check
happens once per request, before the nonce is read for submission; (3) over
any run, the executor's `lastTransaction` equals the `time_submitted` of the
last successful submission, or its initial (construction-time) value when the
run contains none. -/
theorem c6_staleness_measurement (store : Store) (st : TxState) (req : QueuedTxRequest)
    (env : ExecEnv) (b : ℚ) (n : Nat) (pd : String × String)
    (items : List (QueuedTxRequest × ExecEnv))
    (hb : env.balanceResult = .ok b) (hlow : ¬ b < MIN_BALANCE_ETH)
    (hget : env.getNonceResult = .ok n)
    (hpop : env.popupResult = .ok ()) (hpt : env.populateResult = .ok pd) :
    maybeUpdateNonce st env.timeNonceCheck (.ok n) =
      .ok (if (env.timeNonceCheck : Int) - (st.lastTransaction : Int) >
          (NONCE_STALE_AFTER_MS : Int) then { st with nonce := n } else st) ∧
    (executeModel store st req env).sent =
      some { req.overrides with nonce := some (staleNonce st env n) } ∧
    (processAll store st items).1.lastTransaction =
      lastSubmittedTime st.lastTransaction (processAll store st items).2 := by
  refine ⟨maybeUpdateNonce_ok st env.timeNonceCheck n, ?_, processAll_lastTransaction store items st⟩
  show (tryPhase st req env).sentOverrides = _
  exact tryPhase_sent hb hlow hget hpop hpt

/-- Witness for `c6_staleness_measurement` at a concrete input (not stale:
gap 200 ms, so the local nonce 5 is used). -/
theorem c6_staleness_measurement_witness :
    maybeUpdateNonce stW envOkW.timeNonceCheck (.ok 7) =
      .ok (if (envOkW.timeNonceCheck : Int) - (stW.lastTransaction : Int) >
          (NONCE_STALE_AFTER_MS : Int) then { stW with nonce := 7 } else stW) ∧
    (executeModel storeNone stW reqW envOkW).sent =
      some { reqW.overrides with nonce := some (staleNonce stW envOkW 7) } ∧
    (processAll storeNone stW itemsNoRefresh).1.lastTransaction =
      lastSubmittedTime stW.lastTransaction (processAll storeNone stW itemsNoRefresh).2 :=
  c6_staleness_measurement storeNone stW reqW envOkW 1 7 ("to", "data") itemsNoRefresh
    rfl (by decide) rfl rfl rfl

/-- **C7.** Every request produces exactly one instrumentation record —
`executeModel` is total, every error path flowing into the shared `catch` —
and the record is emitted exactly when the per-account opt-out flag is not
set.  The instrumentation layer never affects the request's outcome: the
settlement of both futures, the state update and the assembled record are
identical under any two `localStorage` contents (the only thing the sink
side of the model can vary on), and the worker processes every queued
request — a failing request never shortens the run. -/
theorem c7_error_containment (store store2 : Store) (st : TxState) (req : QueuedTxRequest)
    (env : ExecEnv) (rest : List (QueuedTxRequest × ExecEnv)) :
    ((executeModel store st req env).logged = true ↔
        store (optOutKey env.userAddress) ≠ some "true") ∧
    (executeModel store st req env).submittedOutcome =
      (executeModel store2 st req env).submittedOutcome ∧
    (executeModel store st req env).receiptOutcome =
      (executeModel store2 st req env).receiptOutcome ∧
    (executeModel store st req env).state = (executeModel store2 st req env).state ∧
    (executeModel store st req env).log = (executeModel store2 st req env).log ∧
    (processAll store st ((req, env) :: rest)).2.length = rest.length + 1 := by
  refine ⟨?_, rfl, rfl, rfl, rfl, ?_⟩
  · by_cases hs : store (optOutKey env.userAddress) = some "true" <;>
      simp [executeModel, hs]
  · rw [processAll_length store ((req, env) :: rest) st, List.length_cons]

lemma calls_rcptSettle (store : Store) (st : TxState) (req : QueuedTxRequest)
    (env : ExecEnv) (h : env.timeSubmitted ≠ 0) :
    ((executeModel store st req env).calls.filter isReceiptSettle).length =
      (if isResolved (executeModel store st req env).submittedOutcome then 1 else 0) := by
  cases ht : tryPhase st req env with
  | preSubFail st' n e tc so =>
    simp [executeModel, ht, callsOf, isReceiptSettle, settleSubmitted, isResolved]
  | postSubFail st' sub sent tc e =>
    simp [executeModel, ht, callsOf, isReceiptSettle, settleSubmitted, isResolved, h]
  | confirmedOk st' sub rc sent tc =>
    simp [executeModel, ht, callsOf, isReceiptSettle, settleSubmitted, isResolved]

/-- **C8.** For every request (with nonzero clock readings, so the source's
truthiness test behaves): the submitted future is settled exactly once; the
receipt future is settled at most once, and exactly once precisely when the
submitted future was resolved; and a request whose submission failed never
reaches the receipt phase — its receipt future stays pending and its receipt
callbacks are never invoked. -/
theorem c8_settlement_invariant (store : Store) (st : TxState) (req : QueuedTxRequest)
    (env : ExecEnv) (h : env.timeSubmitted ≠ 0) :
    ((executeModel store st req env).calls.filter isSubmissionSettle).length = 1 ∧
    ((executeModel store st req env).calls.filter isReceiptSettle).length ≤ 1 ∧
    (isResolved (executeModel store st req env).submittedOutcome = true ↔
      ((executeModel store st req env).calls.filter isReceiptSettle).length = 1) ∧
    (isResolved (executeModel store st req env).submittedOutcome = false →
      (executeModel store st req env).receiptOutcome = .pending ∧
      ((executeModel store st req env).calls.filter isReceiptSettle).length = 0) := by
  have hsub := calls_subSettle_count store st req env h
  have hrcpt := calls_rcptSettle store st req env h
  refine ⟨hsub, ?_, ?_, ?_⟩
  · rw [hrcpt]
    split <;> simp
  · rw [hrcpt]
    cases hres : isResolved (executeModel store st req env).submittedOutcome <;> simp [hres]
  · intro hres
    cases ht : tryPhase st req env with
    | preSubFail st' n e tc so =>
      constructor
      · simp [executeModel, ht, callsOf, settleReceipt]
      · simp [executeModel, ht, callsOf, isReceiptSettle]
    | postSubFail st' sub sent tc e =>
      exfalso
      rw [show isResolved (executeModel store st req env).submittedOutcome = true from by
        simp [executeModel, ht, callsOf, settleSubmitted, isResolved]] at hres
      exact absurd hres (by decide)
    | confirmedOk st' sub rc sent tc =>
      exfalso
      rw [show isResolved (executeModel store st req env).submittedOutcome = true from by
        simp [executeModel, ht, callsOf, settleSubmitted, isResolved]] at hres
      exact absurd hres (by decide)

/-- Witness for `c8_settlement_invariant` at a concrete successful run. -/
theorem c8_settlement_invariant_witness :
    ((executeModel storeNone stW reqW envOkW).calls.filter isSubmissionSettle).length = 1 ∧
    ((executeModel storeNone stW reqW envOkW).calls.filter isReceiptSettle).length = 1 :=
  have h := c8_settlement_invariant storeNone stW reqW envOkW (by decide)
  ⟨h.1, h.2.2.1.mp (by decide)⟩

/-- A `localStorage` in which exactly account `addrA` has opted out of
instrumentation. -/
def storeOptOutA : Store :=
  fun k => if k = optOutKey "addrA" then some "true" else none

/-- **C9.** The instrumentation opt-out flag is read per request under the
key of that request's account address: a request from an opted-out account A
is not recorded, a request from account B without the flag is recorded, and
B's assembled record and callback outcomes are independent of the
`localStorage` contents entirely — one account's flag never affects another
account's instrumentation. -/
theorem c9_optout_isolation (store : Store) (st : TxState) (reqA reqB : QueuedTxRequest)
    (envA envB : ExecEnv)
    (hA : store (optOutKey envA.userAddress) = some "true")
    (hB : store (optOutKey envB.userAddress) ≠ some "true") :
    (executeModel store st reqA envA).logged = false ∧
    (executeModel store st reqB envB).logged = true ∧
    ∀ store2 : Store,
      (executeModel store2 st reqB envB).log = (executeModel store st reqB envB).log ∧
      (executeModel store2 st reqB envB).calls = (executeModel store st reqB envB).calls := by
  refine ⟨?_, ?_, fun store2 => ⟨rfl, rfl⟩⟩
  · simp [executeModel, hA]
  · simp [executeModel, hB]

/-- Witness for `c9_optout_isolation`: account `addrA` opted out, account
`addrB` not. -/
theorem c9_optout_isolation_witness :
    (executeModel storeOptOutA stW reqW envOkW).logged = false ∧
    (executeModel storeOptOutA stW reqW { envOkW with userAddress := "addrB" }).logged = true :=
  have h := c9_optout_isolation storeOptOutA stW reqW reqW envOkW
    { envOkW with userAddress := "addrB" } (by decide) (by decide)
  ⟨h.1, h.2.1⟩

/-- **C10.** A `makeRequest` call that omits the overrides parameter enqueues
the request with `gasPrice 1000000000` and `gasLimit 2000000`; at submission
time the caller's overrides are spread under `nonce: this.nonce`, so the
queue-assigned nonce is merged over them and a caller-supplied nonce field
never survives — for an arbitrary overrides record `o`, the transaction is
sent with `o`'s gas fields and the queue's nonce. -/
theorem c10_default_overrides (t a : String) (args : List String)
    (sl : Option SnarkLogData) (store : Store) (st : TxState) (env : ExecEnv)
    (b : ℚ) (n : Nat) (pd : String × String) (o : TxOverrides)
    (hb : env.balanceResult = .ok b) (hlow : ¬ b < MIN_BALANCE_ETH)
    (hget : env.getNonceResult = .ok n)
    (hpop : env.popupResult = .ok ()) (hpt : env.populateResult = .ok pd) :
    (makeRequest t a args none sl).overrides =
      { gasPrice := some 1000000000, gasLimit := some 2000000, nonce := none } ∧
    (executeModel store st
        { type := t, actionId := a, args := args, overrides := o, snarkLogs := sl } env).sent =
      some { gasPrice := o.gasPrice, gasLimit := o.gasLimit,
             nonce := some (staleNonce st env n) } ∧
    (executeModel store st (makeRequest t a args none sl) env).sent =
      some { gasPrice := some 1000000000, gasLimit := some 2000000,
             nonce := some (staleNonce st env n) } := by
  refine ⟨rfl, ?_, ?_⟩
  · show (tryPhase st _ env).sentOverrides = _
    exact tryPhase_sent hb hlow hget hpop hpt
  · show (tryPhase st _ env).sentOverrides = _
    exact tryPhase_sent hb hlow hget hpop hpt

/-- Witness for `c10_default_overrides` at a concrete input. -/
theorem c10_default_overrides_witness :
    (makeRequest "MOVE" "a1" [] none none).overrides =
      { gasPrice := some 1000000000, gasLimit := some 2000000, nonce := none } ∧
    (executeModel storeNone stW (makeRequest "MOVE" "a1" [] none none) envOkW).sent =
      some { gasPrice := some 1000000000, gasLimit := some 2000000,
             nonce := some (staleNonce stW envOkW 7) } :=
  have h := c10_default_overrides "MOVE" "a1" [] none storeNone stW envOkW
    1 7 ("to", "data") { nonce := some 99 } rfl (by decide) rfl rfl rfl
  ⟨h.1, h.2.2⟩

end TxExec
